import Mathlib

/-!
Verification development for the earthquake-visualizer repository.

The program logic under verification lives in `src/pages/CoreMap.jsx`: the
filter over the fetched earthquake events (`filteredEarthquakes`), the
aggregate statistics of the explanation panel (`ExplanationPanel.stats`),
the geocoder handler (`handleSearch`), the events-feed effect
(`fetchEarthquakes`), and the random boundary-type decoration
(`getRandomBoundaryType` / `fetchPlates`).

Modelling conventions:
* JavaScript numbers are modelled as rationals (`ℚ`).  A `properties.mag`
  field that may be `null` in the feed is modelled as `Option ℚ`; JavaScript
  coerces `null` to `0` in relational comparisons (`null >= 0` is true) and
  in arithmetic, which `jsNum` makes explicit.
* A `properties.place` field that may be missing is `Option String`; the
  source guards it with `place || ""` (filter) and `place || "Unknown"`
  (aggregator), i.e. the JavaScript falsy test, modelled by `jsOrDefault`.
* Plain JavaScript objects used as counters preserve insertion order for
  ordinary string keys, but `Object.entries` enumerates keys that are
  canonical array indices first, in ascending numeric order
  (OrdinaryOwnPropertyKeys); `jsObjectEntries` models this.  Exotic
  prototype-chain keys are outside the model.
* `Array.prototype.sort` is stable (ES2019); with the total comparator
  `(a, b) => b[1] - a[1]` its result is the unique stable descending
  reordering, modelled by `List.insertionSort` with `entryGE`.
-/

/-- One feature of the USGS GeoJSON feed, flattened: `id`,
`properties.mag` (may be `null`), `properties.place` (may be missing),
`geometry.coordinates = [lon, lat, depth]`, `properties.time`. -/
structure SeismicEvent where
  id : String
  mag : Option ℚ
  place : Option String
  longitude : ℚ
  latitude : ℚ
  depth : ℚ
  time : Int
deriving DecidableEq

/-- JavaScript `ToNumber` applied to a possibly-`null` magnitude:
`null` coerces to `0` (so `null >= 0` is true in the filter and
`null + x = x` in the aggregator's sum). -/

def jsNum : Option ℚ → ℚ
  | none => 0
  | some x => x

/-- JavaScript `v || d` for a possibly-missing string `v`: the default is
used when `v` is absent or the empty string (both falsy). -/

def jsOrDefault (v : Option String) (d : String) : String :=
  match v with
  | none => d
  | some s => if s = "" then d else s

/-- Models `place || ""` as in the filter of `CoreMap.jsx`. -/

def jsOrEmpty (v : Option String) : String := jsOrDefault v ""

/-- JavaScript `s.includes(pat)`: `pat` occurs contiguously in `s`. -/

def strIncludes (s pat : String) : Bool := decide (pat.toList <:+: s.toList)

/-- The filter state of `CoreMap` (`minMagnitude`, `maxMagnitude`,
`minDepth`, `maxDepth`, `placeFilter`). -/

structure FilterCriteria where
  minMagnitude : ℚ
  maxMagnitude : ℚ
  minDepth : ℚ
  maxDepth : ℚ
  placeFilter : String
deriving DecidableEq

/-- The predicate of `earthquakes.filter((eq) => ...)` in `CoreMap.jsx`:
`mag >= minMagnitude && mag <= maxMagnitude && depth >= minDepth &&
depth <= maxDepth && placeMatch`, where `placeMatch` is
`placeFilter ? place.toLowerCase().includes(placeFilter.toLowerCase()) : true`
and `place` is `eq.properties.place || ""`. -/

def eqPasses (c : FilterCriteria) (e : SeismicEvent) : Bool :=
  let mag := jsNum e.mag
  let depth := e.depth
  let place := jsOrEmpty e.place
  let placeMatch := if c.placeFilter = "" then true
    else strIncludes place.toLower c.placeFilter.toLower
  decide (c.minMagnitude ≤ mag) && decide (mag ≤ c.maxMagnitude) &&
    decide (c.minDepth ≤ depth) && decide (depth ≤ c.maxDepth) && placeMatch

/-- Models `const filteredEarthquakes = earthquakes.filter(...)` of `CoreMap.jsx`. -/

def filteredEarthquakes (c : FilterCriteria) (earthquakes : List SeismicEvent) :
    List SeismicEvent :=
  earthquakes.filter (eqPasses c)

/-- The four predicate clauses as the specification states them, with the
JavaScript coercion of a `null` magnitude to `0` made explicit (the amended
reading of claim C1): magnitude within the magnitude range, depth within the
depth range, and the place (missing replaced by `""`) case-insensitively
contains the keyword or the keyword is empty. -/

def specPasses (c : FilterCriteria) (e : SeismicEvent) : Bool :=
  decide (c.minMagnitude ≤ jsNum e.mag) && decide (jsNum e.mag ≤ c.maxMagnitude) &&
    decide (c.minDepth ≤ e.depth) && decide (e.depth ≤ c.maxDepth) &&
    (decide (c.placeFilter = "") ||
      strIncludes (jsOrEmpty e.place).toLower c.placeFilter.toLower)

/-- The predicate exactly as claim C1 is worded: an event qualifies only if
it actually has a magnitude and that magnitude lies within the range (an
event whose magnitude is `null` has no magnitude lying in any range). -/

def strictPasses (c : FilterCriteria) (e : SeismicEvent) : Bool :=
  (match e.mag with
   | none => false
   | some m => decide (c.minMagnitude ≤ m) && decide (m ≤ c.maxMagnitude)) &&
    decide (c.minDepth ≤ e.depth) && decide (e.depth ≤ c.maxDepth) &&
    (decide (c.placeFilter = "") ||
      strIncludes (jsOrEmpty e.place).toLower c.placeFilter.toLower)

/-- The full-range criteria of claim C5: the UI defaults
(mag `[0,10]`, depth `[0,700]`, empty keyword). -/

def fullRangeCriteria : FilterCriteria :=
  { minMagnitude := 0, maxMagnitude := 10, minDepth := 0, maxDepth := 700,
    placeFilter := "" }

/-- Every event's coerced magnitude lies in `[0,10]` and its depth in
`[0,700]` (the hypothesis of the amended claim C5). -/

def withinCanonicalRanges (events : List SeismicEvent) : Bool :=
  events.all fun e =>
    decide (0 ≤ jsNum e.mag) && decide (jsNum e.mag ≤ 10) &&
      decide (0 ≤ e.depth) && decide (e.depth ≤ 700)

/-- An event with a `null` magnitude, as the feed may deliver. -/

def eNullMag : SeismicEvent :=
  { id := "n1", mag := none, place := some "Plains", longitude := 0,
    latitude := 0, depth := 10, time := 0 }

/-- An event with a negative magnitude, as the feed may deliver. -/

def eNegMag : SeismicEvent :=
  { id := "g1", mag := some (-1), place := some "Gulf", longitude := 0,
    latitude := 0, depth := 10, time := 0 }

/-- An ordinary event used in witnesses. -/

def eSample : SeismicEvent :=
  { id := "s1", mag := some 4, place := some "Ridge", longitude := 1,
    latitude := 2, depth := 10, time := 5 }

/-- A crossed magnitude range (min 5 > max 2) for the claim C6 witness. -/

def crossedCriteria : FilterCriteria :=
  { minMagnitude := 5, maxMagnitude := 2, minDepth := 0, maxDepth := 700,
    placeFilter := "" }

/-- A plate-boundary line feature after `fetchPlates` decorated it:
the original geometry (abstracted to an opaque string) plus the
synthetic `properties.boundaryType`. -/

structure PlateFeature where
  geom : String
  boundaryType : String
deriving DecidableEq

/-- The `plates` GeoJSON document held in state (its `features` array). -/

structure PlatesData where
  features : List PlateFeature
deriving DecidableEq

/-- Models `magnitudes.filter(m => m >= 5)` predicate of the aggregator. -/

def isStrong (m : ℚ) : Bool := decide (5 ≤ m)

/-- Models `magnitudes.filter(m => m >= 3 && m < 5)` predicate of the aggregator. -/

def isModerate (m : ℚ) : Bool := decide (3 ≤ m) && decide (m < 5)

/-- Models `magnitudes.filter(m => m < 3)` predicate of the aggregator. -/

def isMinor (m : ℚ) : Bool := decide (m < 3)

/-- Models `Math.max(...xs)` over a non-empty spread.  The aggregator only calls it
under the `!filteredEarthquakes.length` guard, so the empty case (JS
`-Infinity`) is never reached; it returns `0` here. -/

def jsMathMaxList : List ℚ → ℚ
  | [] => 0
  | m :: ms => ms.foldl max m

/-- Models `Math.min(...xs)` over a non-empty spread; empty case as in
`jsMathMaxList`. -/

def jsMathMinList : List ℚ → ℚ
  | [] => 0
  | m :: ms => ms.foldl min m

/-- Models `obj[k] = (obj[k] || 0) + 1` on a plain object used as a counter:
an existing key keeps its position, a new key is appended (JS insertion
order for ordinary string keys). -/

def bump : List (String × Nat) → String → List (String × Nat)
  | [], k => [(k, 1)]
  | (k', n) :: rest, k =>
      if k' = k then (k', n + 1) :: rest else (k', n) :: bump rest k

/-- Models `const place = e.properties.place || "Unknown"` of the aggregator. -/

def placeKey (e : SeismicEvent) : String := jsOrDefault e.place "Unknown"

/-- The `locationCounts` object of the aggregator, built by
`filteredEarthquakes.forEach(...)`, as an insertion-ordered association
list. -/

def locationCounts (filtered : List SeismicEvent) : List (String × Nat) :=
  filtered.foldl (fun acc e => bump acc (placeKey e)) []

/-- Numeric value of an all-digit key. -/

def digitsToNat (l : List Char) : Nat :=
  l.foldl (fun a c => a * 10 + (c.toNat - 48)) 0

/-- Numeric value of a string key. -/

def keyNum (s : String) : Nat := digitsToNat s.toList

/-- Whether a property key is a canonical array-index string
(`OrdinaryOwnPropertyKeys`): a canonical decimal numeral whose value is
below `2^32 - 1`. -/

def isArrayIndexKey (s : String) : Bool :=
  match s.toList with
  | [] => false
  | c :: cs =>
      (c :: cs).all Char.isDigit && (cs.isEmpty || c != '0') &&
        decide (digitsToNat (c :: cs) < 2 ^ 32 - 1)

/-- Ascending numeric order on array-index keys. -/

def idxLE (a b : String × Nat) : Prop := keyNum a.1 ≤ keyNum b.1

instance : DecidableRel idxLE := fun _ _ => Nat.decLe _ _

/-- Models `Object.entries(obj)` enumeration order: keys that are canonical array
indices first, in ascending numeric order, then the remaining keys in
insertion order. -/

def jsObjectEntries (al : List (String × Nat)) : List (String × Nat) :=
  (al.filter fun kv => isArrayIndexKey kv.1).insertionSort idxLE ++
    al.filter fun kv => !isArrayIndexKey kv.1

/-- The comparator `(a, b) => b[1] - a[1]`: entry `a` may come before `b`
when its count is at least `b`'s. -/

def entryGE (a b : String × Nat) : Prop := b.2 ≤ a.2

instance : DecidableRel entryGE := fun _ _ => Nat.decLe _ _

instance : IsTotal (String × Nat) entryGE := ⟨fun a b => Nat.le_total b.2 a.2⟩

instance : IsTrans (String × Nat) entryGE :=
  ⟨fun _ _ _ h1 h2 => Nat.le_trans h2 h1⟩

/-- Models `.sort((a, b) => b[1] - a[1])`: the stable descending-by-count
reordering (ES2019 `Array.prototype.sort` is stable). -/

def sortEntriesDesc (al : List (String × Nat)) : List (String × Nat) :=
  al.insertionSort entryGE

/-- The first five ranked location entries:
`Object.entries(locationCounts).sort((a, b) => b[1] - a[1]).slice(0, 5)`. -/

def topEntries (filtered : List SeismicEvent) : List (String × Nat) :=
  (sortEntriesDesc (jsObjectEntries (locationCounts filtered))).take 5

/-- The template literal of the ranking: `` `${place} (${count})` ``. -/

def fmtEntry (kv : String × Nat) : String :=
  kv.1 ++ " (" ++ toString kv.2 ++ ")"

/-- The `plateCounts` object: empty when `plates` is still `null`, otherwise
a tally of `f.properties.boundaryType` over all features. -/

def platesTally : Option PlatesData → List (String × Nat)
  | none => []
  | some pd => pd.features.foldl (fun acc f => bump acc f.boundaryType) []

/-- The record returned by `ExplanationPanel.stats` when the filtered set is
non-empty.  `avgMag` is kept as the exact rational mean; the `toFixed(2)`
decimal formatting is presentation only. -/

structure Stats where
  total : Nat
  highMagCount : Nat
  medMagCount : Nat
  lowMagCount : Nat
  avgMag : ℚ
  maxMag : ℚ
  minMag : ℚ
  maxDepth : ℚ
  minDepth : ℚ
  topLocations : List String
  plateCounts : List (String × Nat)
deriving DecidableEq

/-- Models `ExplanationPanel`'s `stats` memo: `null` when
`!filteredEarthquakes.length`, otherwise the aggregate record computed from
`filteredEarthquakes` and `plates`. -/

def stats (filtered : List SeismicEvent) (plates : Option PlatesData) :
    Option Stats :=
  if filtered.isEmpty then none
  else
    let magnitudes := filtered.map fun e => jsNum e.mag
    let depths := filtered.map fun e => e.depth
    some
      { total := filtered.length
        highMagCount := (magnitudes.filter isStrong).length
        medMagCount := (magnitudes.filter isModerate).length
        lowMagCount := (magnitudes.filter isMinor).length
        avgMag := magnitudes.foldl (· + ·) 0 / (filtered.length : ℚ)
        maxMag := jsMathMaxList magnitudes
        minMag := jsMathMinList magnitudes
        maxDepth := jsMathMaxList depths
        minDepth := jsMathMinList depths
        topLocations := (topEntries filtered).map fmtEntry
        plateCounts := platesTally plates }

/-- What the explanation panel renders: either the distinct no-matches
message (`if (!stats) return <p>No earthquakes match ...`) or the report
built from the stats record. -/

inductive PanelView where
  | noMatches
  | report (r : Stats)
deriving DecidableEq

/-- The branching of `ExplanationPanel` on the `stats` memo. -/

def explanationPanel (filtered : List SeismicEvent)
    (plates : Option PlatesData) : PanelView :=
  match stats filtered plates with
  | none => PanelView.noMatches
  | some r => PanelView.report r

def eMag3 : SeismicEvent :=
  { id := "m3", mag := some 3, place := some "Alps", longitude := 0,
    latitude := 0, depth := 20, time := 0 }

/-- The stats record of the singleton collection `[eSample]`. -/

def statsSample : Stats :=
  { total := 1, highMagCount := 0, medMagCount := 1, lowMagCount := 0,
    avgMag := 4, maxMag := 4, minMag := 4, maxDepth := 10, minDepth := 10,
    topLocations := ["Ridge (1)"], plateCounts := [] }

def coerceNullMag (e : SeismicEvent) : SeismicEvent :=
  { e with mag := some (jsNum e.mag) }

def handleSearch (searchLocation : String) (geocode : String → List (ℚ × ℚ))
    (locationCoords : Option (ℚ × ℚ)) : Option (ℚ × ℚ) × Bool :=
  if searchLocation = "" then (locationCoords, false)
  else
    match geocode searchLocation with
    | [] => (locationCoords, true)
    | (lat, lon) :: _ => (some (lat, lon), true)

/-- A geocoding service that never finds anything. -/

def emptyGeocoder : String → List (ℚ × ℚ) := fun _ => []

/-- C9 (counterexample): the single-space query is whitespace-only and
non-empty, and `handleSearch` issues a network request for it (`!" "` is
false in JavaScript), contradicting the claim that whitespace-only queries
make no request. -/

def boundaryTypesList : List String := ["Convergent", "Divergent", "Transform"]

/-- Models `types[Math.floor(Math.random() * types.length)]` with the
`Math.random()` draw `r` passed explicitly; an out-of-range index would
yield JavaScript `undefined`, modelled by the `"undefined"` default. -/

def getRandomBoundaryType (r : ℚ) : String :=
  let i : Int := Int.floor (r * 3)
  if i < 0 then "undefined" else boundaryTypesList.getD i.toNat "undefined"

/-- The `boundaryColors` lookup object. -/

def boundaryColors (t : String) : Option String :=
  if t = "Convergent" then some "#FF0000"
  else if t = "Divergent" then some "#006400"
  else if t = "Transform" then some "#0000FF"
  else none

/-- Models `boundaryColors[feature.properties.boundaryType] || "#FF00FF"` in the
GeoJSON style callback. -/

def boundaryStyleColor (t : String) : String :=
  (boundaryColors t).getD "#FF00FF"

/-- The `boundaryDescriptions` lookup object. -/

def boundaryDescriptions (t : String) : Option String :=
  if t = "Convergent" then some "Convergent: Plates collide → Strong earthquakes"
  else if t = "Divergent" then some "Divergent: Plates move apart → Moderate earthquakes"
  else if t = "Transform" then some "Transform: Plates slide past → Shallow earthquakes"
  else none

/-- Models `fetchPlates`'s decoration `data.features.map(f => ({...f, properties:
{...f.properties, boundaryType: getRandomBoundaryType()}}))`, with the
successive `Math.random()` draws passed as `rs`. -/

def decoratePlates (raw : List String) (rs : List ℚ) : PlatesData :=
  ⟨(raw.zip rs).map fun p =>
    { geom := p.1, boundaryType := getRandomBoundaryType p.2 }⟩

/-- An in-flight `fetchEarthquakes` request: the `timeRange` it was issued
for and the features its response will deliver. -/

structure PendingRequest where
  window : String
  payload : List SeismicEvent
deriving DecidableEq

/-- The relevant `CoreMap` component state. -/

structure AppState where
  timeRange : String
  earthquakes : List SeismicEvent
  plates : Option PlatesData
  pendingEq : List PendingRequest
deriving DecidableEq

/-- One cooperative event-loop step: a time-window selection (also covering
the initial mount effect), the completion of a pending events fetch, or the
completion of the plates fetch. -/

inductive Step where
  | selectWindow (w : String) (payload : List SeismicEvent)
  | completeEq (i : Nat)
  | completePlates (raw : List String) (rs : List ℚ)
deriving DecidableEq

/-- Initial component state (`useState` defaults). -/

def initState : AppState :=
  { timeRange := "all_day", earthquakes := [], plates := none,
    pendingEq := [] }

/-- The event-loop semantics of `CoreMap.jsx` as written: selecting a time
window sets `timeRange` and issues a fetch for it; a completing events
fetch applies its payload with `setEarthquakes(data.features)`
unconditionally — `fetchEarthquakes` has no staleness check; the plates
fetch completion stores the decorated boundary collection. -/

def applyStep (s : AppState) : Step → AppState
  | .selectWindow w payload =>
      { s with timeRange := w, pendingEq := s.pendingEq ++ [⟨w, payload⟩] }
  | .completeEq i =>
      match s.pendingEq[i]? with
      | none => s
      | some req =>
          { s with earthquakes := req.payload,
                   pendingEq := s.pendingEq.eraseIdx i }
  | .completePlates raw rs =>
      { s with plates := some (decoratePlates raw rs) }

/-- Modelled from the spec: the stale-response guard the specification
requires of the Feed Loader ("apply response only if it corresponds to the
currently-selected timeWindow at completion time, else discard").  This
guard is absent from `fetchEarthquakes` in the source. -/

def applyStepGuarded (s : AppState) : Step → AppState
  | .completeEq i =>
      match s.pendingEq[i]? with
      | none => s
      | some req =>
          if req.window = s.timeRange then
            { s with earthquakes := req.payload,
                     pendingEq := s.pendingEq.eraseIdx i }
          else { s with pendingEq := s.pendingEq.eraseIdx i }
  | st => applyStep s st

/-- Run a trace of steps under the source semantics. -/

def runTrace (s : AppState) (steps : List Step) : AppState :=
  steps.foldl applyStep s

/-- Run a trace of steps under the spec-guarded semantics. -/

def runTraceGuarded (s : AppState) (steps : List Step) : AppState :=
  steps.foldl applyStepGuarded s

/-- The response the feed returns for `all_day`. -/

def feedA : List SeismicEvent :=
  [{ id := "a1", mag := some 1, place := some "Alpha", longitude := 0,
     latitude := 0, depth := 5, time := 1 }]

/-- The response the feed returns for `all_week`. -/

def feedB : List SeismicEvent :=
  [{ id := "b1", mag := some 2, place := some "Beta", longitude := 0,
     latitude := 0, depth := 6, time := 2 }]

/-- The racing interleaving: mount fetch for `all_day`, user selects
`all_week`, the newer `all_week` response completes first, then the older
`all_day` response completes last. -/

def raceTrace : List Step :=
  [Step.selectWindow "all_day" feedA, Step.selectWindow "all_week" feedB,
   Step.completeEq 1, Step.completeEq 0]

/-- C7 (code bug): on the racing interleaving the source semantics end with
`timeRange = "all_week"` but `earthquakes = feedA` — the older, slower
`all_day` response overwrote the newer selection's result — while the
spec-mandated guard would end with `feedB`. -/

def typeOk (t : String) : Bool :=
  decide (t ∈ boundaryTypesList) && (boundaryColors t).isSome &&
    decide (boundaryStyleColor t ≠ "#FF00FF") &&
    (boundaryDescriptions t).isSome

/-- Either the plates are not loaded yet, or every feature carries a
well-formed boundary type. -/

def platesWellTyped (s : AppState) : Bool :=
  match s.plates with
  | none => true
  | some pd => pd.features.all fun f => typeOk f.boundaryType

/-- A step is valid when any `Math.random()` draws it carries lie in the
`[0, 1)` range `Math.random` guarantees, one draw per raw feature. -/

def stepValid : Step → Bool
  | .completePlates raw rs =>
      rs.length == raw.length &&
        rs.all fun r => decide (0 ≤ r) && decide (r < 1)
  | _ => true

/-- All steps of a trace are valid. -/

def validTrace (steps : List Step) : Bool := steps.all stepValid

def platesTrace : List Step :=
  [Step.completePlates ["g1", "g2", "g3"] [0, 0, 0]]

def claimTopLocations (filtered : List SeismicEvent) : List String :=
  ((sortEntriesDesc (locationCounts filtered)).take 5).map fmtEntry

/-- An event whose place is the canonical array-index string "10". -/

def ePlace10 : SeismicEvent :=
  { id := "p10", mag := some 1, place := some "10", longitude := 0,
    latitude := 0, depth := 1, time := 0 }

/-- An event whose place is the canonical array-index string "2". -/

def ePlace2 : SeismicEvent :=
  { id := "p2", mag := some 1, place := some "2", longitude := 0,
    latitude := 0, depth := 1, time := 0 }

/-- C3 (counterexample): for the filtered set `[ePlace10, ePlace2]` the two
places tie at one event each and first occur in the order "10", "2"; the
claimed first-occurrence tie-break would rank `["10 (1)", "2 (1)"]`, but the
code ranks `["2 (1)", "10 (1)"]`, because `Object.entries` enumerates
canonical array-index keys first in ascending numeric order. -/

def assocGet : List (String × Nat) → String → Nat
  | [], _ => 0
  | (k', n) :: rest, k => if k' = k then n else assocGet rest k

def topEntriesCountsCorrect (filtered : List SeismicEvent) : Prop :=
  ∀ kv ∈ topEntries filtered, kv.2 = (filtered.map placeKey).count kv.1

/-- The ranked entries are in descending order of occurrence count. -/

def topEntriesSortedDesc (filtered : List SeismicEvent) : Prop :=
  List.Sorted entryGE (topEntries filtered)

/-- Among entries of any fixed count, the ranking preserves the
`Object.entries` enumeration order (the sort is stable). -/

def topEntriesTieStable (filtered : List SeismicEvent) : Prop :=
  ∀ c : Nat, (topEntries filtered).filter (fun kv => kv.2 == c) <+:
    (jsObjectEntries (locationCounts filtered)).filter fun kv => kv.2 == c

theorem eqPasses_eq_specPasses (c : FilterCriteria) (e : SeismicEvent) :
    eqPasses c e = specPasses c e := by
  unfold eqPasses specPasses
  by_cases h : c.placeFilter = "" <;> simp [h]

/-- C1 (amended): the Filter Engine's output is exactly the stable filter of
the input by the spec's four predicate clauses, with a `null` magnitude
coerced to `0` for the range checks; in particular the output is a sublist
of the input (same relative order). -/

theorem filter_matches_spec_predicate (c : FilterCriteria)
    (events : List SeismicEvent) :
    filteredEarthquakes c events = events.filter (specPasses c) ∧
      List.Sublist (filteredEarthquakes c events) events := by
  constructor
  · unfold filteredEarthquakes
    exact List.filter_congr fun e _ => eqPasses_eq_specPasses c e
  · exact List.filter_sublist events

theorem filter_matches_spec_predicate_witness :
    filteredEarthquakes fullRangeCriteria [eSample, eNullMag] =
        [eSample, eNullMag].filter (specPasses fullRangeCriteria) ∧
      List.Sublist (filteredEarthquakes fullRangeCriteria [eSample, eNullMag])
        [eSample, eNullMag] :=
  filter_matches_spec_predicate fullRangeCriteria [eSample, eNullMag]

/-- C1 (counterexample): with the full-range criteria the code keeps an
event whose magnitude is `null`, although that event has no magnitude lying
within `[0,10]`; so the output is not the filter by the claim's predicate as
stated. -/

theorem filter_null_magnitude_counterexample :
    filteredEarthquakes fullRangeCriteria [eNullMag] = [eNullMag] ∧
      strictPasses fullRangeCriteria eNullMag = false ∧
      filteredEarthquakes fullRangeCriteria [eNullMag] ≠
        [eNullMag].filter (strictPasses fullRangeCriteria) := by
  refine ⟨by decide, by decide, by decide⟩

/-- C5 (counterexample): the full-range criteria drop an event whose
magnitude is negative (`-1 >= 0` fails), so the full-range filter is not the
identity on every collection. -/

theorem full_range_filter_not_identity :
    filteredEarthquakes fullRangeCriteria [eNegMag] = [] ∧
      filteredEarthquakes fullRangeCriteria [eNegMag] ≠ [eNegMag] := by
  refine ⟨by decide, by decide⟩

/-- C5 (amended): the full-range criteria (mag `[0,10]`, depth `[0,700]`,
empty keyword) act as the identity on every collection whose events all have
coerced magnitude in `[0,10]` and depth in `[0,700]`. -/

theorem full_range_filter_identity_on_canonical (events : List SeismicEvent)
    (h : withinCanonicalRanges events = true) :
    filteredEarthquakes fullRangeCriteria events = events := by
  unfold filteredEarthquakes
  rw [List.filter_eq_self]
  intro e he
  have h' := (List.all_eq_true.mp h) e he
  simp only [Bool.and_eq_true, decide_eq_true_eq] at h'
  simp [eqPasses, fullRangeCriteria]
  exact ⟨⟨⟨h'.1.1.1, h'.1.1.2⟩, h'.1.2⟩, h'.2⟩

theorem full_range_filter_identity_witness :
    withinCanonicalRanges [eSample, eNullMag] = true ∧
      filteredEarthquakes fullRangeCriteria [eSample, eNullMag] =
        [eSample, eNullMag] :=
  ⟨by decide, full_range_filter_identity_on_canonical [eSample, eNullMag] (by decide)⟩

/-- C6: when the magnitude range is crossed (`min > max`) the filter output
is empty for every event collection — the two bound checks are applied
independently, never swapped. -/

theorem crossed_magnitude_range_empty (events : List SeismicEvent)
    (c : FilterCriteria) (h : c.maxMagnitude < c.minMagnitude) :
    filteredEarthquakes c events = [] := by
  unfold filteredEarthquakes
  rw [List.filter_eq_nil_iff]
  intro e _
  simp only [eqPasses, Bool.and_eq_true, decide_eq_true_eq]
  intro hc
  exact absurd (le_trans hc.1.1.1.1 hc.1.1.1.2) (not_le.mpr h)

theorem crossed_magnitude_range_empty_witness :
    crossedCriteria.maxMagnitude < crossedCriteria.minMagnitude ∧
      filteredEarthquakes crossedCriteria [eSample] = [] :=
  ⟨by decide, crossed_magnitude_range_empty [eSample] crossedCriteria (by decide)⟩

/-- An event with magnitude `3`, used alongside `eNullMag` in the C8
counterexample. -/

theorem band_sum (l : List ℚ) :
    (l.filter isStrong).length + (l.filter isModerate).length +
      (l.filter isMinor).length = l.length := by
  induction l with
  | nil => rfl
  | cons m t ih =>
    by_cases h5 : (5 : ℚ) ≤ m
    · have h3 : (3 : ℚ) ≤ m := le_trans (by norm_num) h5
      have hm : ¬m < 3 := not_lt.mpr h3
      have hm5 : ¬m < 5 := not_lt.mpr h5
      simp [isStrong, isModerate, isMinor, List.filter_cons, h5, h3, hm, hm5]
      omega
    · by_cases h3 : (3 : ℚ) ≤ m
      · have hm : ¬m < 3 := not_lt.mpr h3
        have hm5 : m < 5 := not_le.mp h5
        simp [isStrong, isModerate, isMinor, List.filter_cons, h5, h3, hm, hm5]
        omega
      · have hm : m < 3 := not_le.mp h3
        have hm5 : m < 5 := lt_trans hm (by norm_num)
        simp [isStrong, isModerate, isMinor, List.filter_cons, h5, h3, hm, hm5]
        omega

/-- C2: for every non-empty filtered set whose stats record the aggregator
returns, no event magnitude is counted in two bands (the three band
predicates are mutually exclusive) and the three band counts sum to the
total. -/

theorem magnitude_bands_partition (filtered : List SeismicEvent)
    (p : Option PlatesData) (hne : filtered ≠ []) (r : Stats)
    (hr : stats filtered p = some r) :
    (filtered.map fun e => jsNum e.mag).countP
        (fun m => isStrong m && isModerate m) = 0 ∧
      (filtered.map fun e => jsNum e.mag).countP
        (fun m => isStrong m && isMinor m) = 0 ∧
      (filtered.map fun e => jsNum e.mag).countP
        (fun m => isModerate m && isMinor m) = 0 ∧
      r.highMagCount + r.medMagCount + r.lowMagCount = r.total := by
  refine ⟨?_, ?_, ?_, ?_⟩
  · rw [List.countP_eq_zero]
    intro m _ h
    simp only [isStrong, isModerate, Bool.and_eq_true, decide_eq_true_eq] at h
    linarith [h.1, h.2.1, h.2.2]
  · rw [List.countP_eq_zero]
    intro m _ h
    simp only [isStrong, isMinor, Bool.and_eq_true, decide_eq_true_eq] at h
    linarith [h.1, h.2]
  · rw [List.countP_eq_zero]
    intro m _ h
    simp only [isModerate, isMinor, Bool.and_eq_true, decide_eq_true_eq] at h
    linarith [h.1.1, h.1.2, h.2]
  · cases filtered with
    | nil => exact absurd rfl hne
    | cons e t =>
      simp only [stats, List.isEmpty_cons, Bool.false_eq_true, if_false,
        Option.some.injEq] at hr
      subst hr
      simpa using band_sum ((e :: t).map fun e => jsNum e.mag)

theorem statsSample_spec : stats [eSample] none = some statsSample := by
  simp only [stats, statsSample, List.isEmpty_cons, Bool.false_eq_true,
    if_false, Option.some.injEq, Stats.mk.injEq]
  refine ⟨by decide, by decide, by decide, by decide,
    by norm_num [eSample, jsNum], by decide, by decide, by decide, by decide,
    by decide, by decide⟩

theorem magnitude_bands_partition_witness :
    [eSample] ≠ ([] : List SeismicEvent) ∧
      stats [eSample] none = some statsSample ∧
      (([eSample].map fun e => jsNum e.mag).countP
          (fun m => isStrong m && isModerate m) = 0 ∧
        ([eSample].map fun e => jsNum e.mag).countP
          (fun m => isStrong m && isMinor m) = 0 ∧
        ([eSample].map fun e => jsNum e.mag).countP
          (fun m => isModerate m && isMinor m) = 0 ∧
        statsSample.highMagCount + statsSample.medMagCount +
            statsSample.lowMagCount = statsSample.total) :=
  ⟨by decide, statsSample_spec,
    magnitude_bands_partition [eSample] none (by decide) statsSample
      statsSample_spec⟩

/-- C4: the aggregator returns the distinguished no-data marker (`null`,
modelled `none`) exactly on the empty filtered set, and on the empty set the
panel renders the distinct no-matches message rather than a report. -/

theorem empty_filtered_no_data_marker (filtered : List SeismicEvent)
    (p : Option PlatesData) :
    (stats filtered p = none ↔ filtered = []) ∧
      explanationPanel [] p = PanelView.noMatches := by
  refine ⟨⟨?_, ?_⟩, rfl⟩
  · intro h
    cases filtered with
    | nil => rfl
    | cons e t =>
      simp only [stats, List.isEmpty_cons, Bool.false_eq_true, if_false] at h
      exact (Option.some_ne_none _ h).elim
  · intro h
    subst h
    rfl

theorem empty_filtered_no_data_marker_witness :
    (stats [] none = none ↔ ([] : List SeismicEvent) = []) ∧
      explanationPanel [] none = PanelView.noMatches :=
  empty_filtered_no_data_marker [] none

/-- Models `{ e with mag: e.mag == null ? 0 : e.mag }`: replacing a `null`
magnitude by the `0` JavaScript coerces it to. -/

theorem magnitudes_coerce (l : List SeismicEvent) :
    ((l.map coerceNullMag).map fun e => jsNum e.mag) =
      l.map fun e => jsNum e.mag := by
  rw [List.map_map]
  rfl

theorem depths_coerce (l : List SeismicEvent) :
    ((l.map coerceNullMag).map fun e => e.depth) = l.map fun e => e.depth := by
  rw [List.map_map]
  rfl

theorem locationCounts_coerce (l : List SeismicEvent) :
    locationCounts (l.map coerceNullMag) = locationCounts l := by
  unfold locationCounts
  rw [List.foldl_map]
  rfl

theorem topEntries_coerce (l : List SeismicEvent) :
    topEntries (l.map coerceNullMag) = topEntries l := by
  unfold topEntries
  rw [locationCounts_coerce]

theorem isEmpty_coerce (l : List SeismicEvent) :
    (l.map coerceNullMag).isEmpty = l.isEmpty := by
  cases l <;> rfl

/-- C8 (amended): events with `null` magnitude are not excluded from the
numeric aggregates — the aggregator computes exactly what it would compute
after replacing every `null` magnitude by `0` (JavaScript's coercion), so
such events count in the minor band, enter the average's sum and
denominator, and take part in the magnitude extrema as `0`. -/

theorem aggregates_coerce_null_magnitude (filtered : List SeismicEvent)
    (p : Option PlatesData) :
    stats filtered p = stats (filtered.map coerceNullMag) p := by
  symm
  unfold stats
  simp only [magnitudes_coerce, depths_coerce, List.length_map,
    topEntries_coerce, isEmpty_coerce]

theorem aggregates_coerce_null_magnitude_witness :
    stats [eNullMag, eMag3] none =
      stats ([eNullMag, eMag3].map coerceNullMag) none :=
  aggregates_coerce_null_magnitude [eNullMag, eMag3] none

/-- C8 (counterexample): in the collection `[eNullMag, eMag3]` the only
non-`null` magnitude is `3`, so aggregates computed only over events with
non-`null` magnitude would give a minor-band count of `0` and a minimum
magnitude of `3`; the code reports a minor-band count of `1` and a minimum
magnitude of `0` — the `null` magnitude is counted, coerced to `0`. -/

theorem null_magnitude_counted_counterexample :
    [eNullMag, eMag3].filterMap SeismicEvent.mag = [3] ∧
      (stats [eNullMag, eMag3] none).map Stats.lowMagCount = some 1 ∧
      (stats [eNullMag, eMag3] none).map Stats.minMag = some 0 := by
  refine ⟨by decide, by decide, by decide⟩

/-- Models `handleSearch` of `CoreMap.jsx` with the geocoding service passed in
explicitly: `if (!searchLocation) return;` (only the empty string is falsy),
otherwise one request is issued; a non-empty candidate list recenters to the
first candidate's coordinates, an empty one leaves them unchanged (alert).
The second component records whether a network request was issued. -/

theorem whitespace_query_issues_request :
    " ".toList.all Char.isWhitespace = true ∧ " " ≠ "" ∧
      (handleSearch " " emptyGeocoder none).2 = true := by
  refine ⟨by decide, by decide, by decide⟩

/-- C9 (amended): the place-resolution hander is a no-op — no request
issued, coordinates unchanged — exactly for the empty query; every
non-empty query, including whitespace-only ones, issues a request. -/

theorem geocoder_noop_iff_empty (q : String) (g : String → List (ℚ × ℚ))
    (c : Option (ℚ × ℚ)) :
    ((handleSearch q g c).2 = false ↔ q = "") ∧
      handleSearch "" g c = (c, false) := by
  refine ⟨⟨?_, ?_⟩, rfl⟩
  · intro h
    by_contra hq
    rw [handleSearch, if_neg hq] at h
    cases hg : g q with
    | nil =>
        rw [hg] at h
        simp at h
    | cons p rest =>
        obtain ⟨la, lo⟩ := p
        rw [hg] at h
        simp at h
  · intro h
    subst h
    rfl

theorem geocoder_noop_iff_empty_witness :
    ((handleSearch " " emptyGeocoder none).2 = false ↔ " " = "") ∧
      handleSearch "" emptyGeocoder none = (none, false) :=
  geocoder_noop_iff_empty " " emptyGeocoder none

/-- Models `const types = ["Convergent", "Divergent", "Transform"]`. -/

theorem stale_response_overwrites :
    (runTrace initState raceTrace).timeRange = "all_week" ∧
      (runTrace initState raceTrace).earthquakes = feedA ∧
      (runTraceGuarded initState raceTrace).timeRange = "all_week" ∧
      (runTraceGuarded initState raceTrace).earthquakes = feedB ∧
      feedA ≠ feedB := by
  refine ⟨by decide, by decide, by decide, by decide, by decide⟩

/-- A boundary type is well-formed when it is one of the three enum values
and neither the color nor the description lookup falls through to its
fallback. -/

theorem getRandomBoundaryType_mem (r : ℚ) (h0 : 0 ≤ r) (h1 : r < 1) :
    getRandomBoundaryType r ∈ boundaryTypesList := by
  simp only [getRandomBoundaryType]
  have h3 : (0 : ℚ) ≤ r * 3 := by linarith
  have h3' : r * 3 < 3 := by linarith
  have hf0 : 0 ≤ Int.floor (r * 3) := Int.floor_nonneg.mpr h3
  have hf3 : Int.floor (r * 3) < 3 := by
    rw [Int.floor_lt]
    exact_mod_cast h3'
  rw [if_neg (not_lt.mpr hf0)]
  set n := (Int.floor (r * 3)).toNat with hdef
  have hn : n < 3 := by omega
  interval_cases n <;> decide

theorem platesWellTyped_preserved (st : Step) (s : AppState)
    (hs : platesWellTyped s = true) (hv : stepValid st = true) :
    platesWellTyped (applyStep s st) = true := by
  cases st with
  | selectWindow w payload => simpa [applyStep, platesWellTyped] using hs
  | completeEq i =>
      cases hg : s.pendingEq[i]? with
      | none => simpa [applyStep, hg, platesWellTyped] using hs
      | some req => simpa [applyStep, hg, platesWellTyped] using hs
  | completePlates raw rs =>
      simp only [applyStep, platesWellTyped]
      rw [List.all_eq_true]
      intro f hf
      simp only [decoratePlates, List.mem_map] at hf
      obtain ⟨p, hp, rfl⟩ := hf
      have hr : p.2 ∈ rs := (List.of_mem_zip hp).2
      simp only [stepValid, Bool.and_eq_true, List.all_eq_true] at hv
      have hb := hv.2 p.2 hr
      simp only [Bool.and_eq_true, decide_eq_true_eq] at hb
      have hmem := getRandomBoundaryType_mem p.2 hb.1 hb.2
      simp only [boundaryTypesList, List.mem_cons, List.mem_singleton,
        List.not_mem_nil, or_false] at hmem
      show typeOk (getRandomBoundaryType p.2) = true
      rcases hmem with h | h | h <;> rw [h] <;> decide

/-- C10: along every valid trace (every `Math.random()` draw in `[0,1)`),
the loaded boundary collection — whenever it is present — carries only the
three enum values `Convergent`, `Divergent`, `Transform` as `boundaryType`
(the random assignment is total into this set), the invariant is preserved
by every subsequent step, and the color and description lookups keyed by
`boundaryType` never fall through to their fallbacks. -/

theorem boundary_type_invariant (steps : List Step)
    (h : validTrace steps = true) :
    platesWellTyped (runTrace initState steps) = true := by
  have key : ∀ (l : List Step) (s : AppState), platesWellTyped s = true →
      l.all stepValid = true → platesWellTyped (runTrace s l) = true := by
    intro l
    induction l with
    | nil =>
        intro s hs _
        simpa [runTrace] using hs
    | cons st rest ih =>
        intro s hs hv
        simp only [List.all_cons, Bool.and_eq_true] at hv
        have hstep := platesWellTyped_preserved st s hs hv.1
        simpa [runTrace] using ih (applyStep s st) hstep hv.2
  exact key steps initState (by decide) h

/-- A valid plates-loading trace used as the C10 witness. -/

theorem boundary_type_invariant_witness :
    validTrace platesTrace = true ∧
      platesWellTyped (runTrace initState platesTrace) = true :=
  ⟨by decide, boundary_type_invariant platesTrace (by decide)⟩

/-- Top locations as claim C3 words the tie-break: the counter's entries in
first-occurrence order only, stably sorted by descending count, first five,
formatted — i.e. without the array-index key reordering `Object.entries`
actually performs. -/

theorem top_locations_tiebreak_counterexample :
    (stats [ePlace10, ePlace2] none).map Stats.topLocations =
        some ["2 (1)", "10 (1)"] ∧
      claimTopLocations [ePlace10, ePlace2] = ["10 (1)", "2 (1)"] ∧
      (stats [ePlace10, ePlace2] none).map Stats.topLocations ≠
        some (claimTopLocations [ePlace10, ePlace2]) := by
  refine ⟨by decide, by decide, by decide⟩

theorem filter_orderedInsert_count (x : String × Nat) (c : Nat)
    (l : List (String × Nat)) :
    (List.orderedInsert entryGE x l).filter (fun kv => kv.2 == c) =
      if x.2 = c then x :: l.filter (fun kv => kv.2 == c)
      else l.filter (fun kv => kv.2 == c) := by
  induction l with
  | nil =>
      by_cases hc : x.2 = c <;>
        simp [List.orderedInsert, List.filter_cons, hc]
  | cons y ys ih =>
      by_cases hxy : entryGE x y
      · simp only [List.orderedInsert, if_pos hxy]
        by_cases hc : x.2 = c <;> simp [List.filter_cons, hc]
      · simp only [List.orderedInsert, if_neg hxy]
        by_cases hc : x.2 = c
        · have hyc : ¬y.2 = c := by
            simp only [entryGE] at hxy
            omega
          simp [List.filter_cons, hc, hyc, ih]
        · by_cases hyc : y.2 = c <;> simp [List.filter_cons, hc, hyc, ih]

theorem filter_count_insertionSort (c : Nat) (l : List (String × Nat)) :
    (List.insertionSort entryGE l).filter (fun kv => kv.2 == c) =
      l.filter (fun kv => kv.2 == c) := by
  induction l with
  | nil => rfl
  | cons x xs ih =>
      simp only [List.insertionSort]
      rw [filter_orderedInsert_count]
      by_cases hc : x.2 = c <;> simp [List.filter_cons, hc, ih]

theorem bump_keys (al : List (String × Nat)) (k : String) :
    (bump al k).map Prod.fst =
      if k ∈ al.map Prod.fst then al.map Prod.fst
      else al.map Prod.fst ++ [k] := by
  induction al with
  | nil => simp [bump]
  | cons kv rest ih =>
      obtain ⟨k', n⟩ := kv
      by_cases h : k' = k
      · subst h
        simp [bump]
      · have h' : ¬k = k' := fun hh => h hh.symm
        simp only [bump, if_neg h, List.map_cons, ih]
        by_cases hm : k ∈ rest.map Prod.fst <;>
          simp [hm, List.mem_cons, h']

theorem foldl_bump_keys_nodup (ks : List String) :
    ∀ acc : List (String × Nat), (acc.map Prod.fst).Nodup →
      ((ks.foldl bump acc).map Prod.fst).Nodup := by
  induction ks with
  | nil =>
      intro acc h
      simpa using h
  | cons k ks ih =>
      intro acc h
      rw [List.foldl_cons]
      apply ih
      rw [bump_keys]
      by_cases hm : k ∈ acc.map Prod.fst
      · simpa [hm] using h
      · simp [hm, List.nodup_append, h]

theorem mem_foldl_bump_keys (ks : List String) :
    ∀ (acc : List (String × Nat)) (x : String),
      x ∈ (ks.foldl bump acc).map Prod.fst ↔
        x ∈ acc.map Prod.fst ∨ x ∈ ks := by
  induction ks with
  | nil =>
      intro acc x
      simp
  | cons k ks ih =>
      intro acc x
      rw [List.foldl_cons, ih, bump_keys]
      by_cases hm : k ∈ acc.map Prod.fst
      · by_cases hx : x = k
        · subst hx
          simp [hm]
        · simp [hm, hx]
      · by_cases hx : x = k
        · subst hx
          simp [hm]
        · simp [hm, hx]

theorem locationCounts_eq_foldl (l : List SeismicEvent) :
    locationCounts l = (l.map placeKey).foldl bump [] := by
  unfold locationCounts
  rw [List.foldl_map]

theorem locationCounts_keys_nodup (l : List SeismicEvent) :
    ((locationCounts l).map Prod.fst).Nodup := by
  rw [locationCounts_eq_foldl]
  exact foldl_bump_keys_nodup _ [] (by simp)

theorem locationCounts_keys_toFinset (l : List SeismicEvent) :
    ((locationCounts l).map Prod.fst).toFinset = (l.map placeKey).toFinset := by
  ext x
  rw [List.mem_toFinset, List.mem_toFinset, locationCounts_eq_foldl,
    mem_foldl_bump_keys]
  simp

theorem locationCounts_length (l : List SeismicEvent) :
    (locationCounts l).length = (l.map placeKey).toFinset.card := by
  rw [← locationCounts_keys_toFinset,
    List.toFinset_card_of_nodup (locationCounts_keys_nodup l)]
  exact (List.length_map _ _).symm

/-- Lookup in the counter association list (`obj[k]`, `0` when absent). -/

theorem assocGet_bump_self (al : List (String × Nat)) (k : String) :
    assocGet (bump al k) k = assocGet al k + 1 := by
  induction al with
  | nil => simp [bump, assocGet]
  | cons kv rest ih =>
      obtain ⟨k', n⟩ := kv
      by_cases h : k' = k
      · subst h
        simp [bump, assocGet]
      · simp [bump, assocGet, h, ih]

theorem assocGet_bump_other (al : List (String × Nat)) (k k' : String)
    (h : k' ≠ k) : assocGet (bump al k) k' = assocGet al k' := by
  have h' : ¬k = k' := fun hh => h hh.symm
  induction al with
  | nil => simp [bump, assocGet, h']
  | cons kv rest ih =>
      obtain ⟨k0, n⟩ := kv
      by_cases h0 : k0 = k
      · subst h0
        simp [bump, assocGet, h']
      · simp [bump, assocGet, h0, ih]

theorem assocGet_foldl_bump (ks : List String) :
    ∀ (acc : List (String × Nat)) (k : String),
      assocGet (ks.foldl bump acc) k = assocGet acc k + ks.count k := by
  induction ks with
  | nil =>
      intro acc k
      simp
  | cons k0 ks ih =>
      intro acc k
      rw [List.foldl_cons, ih]
      by_cases h : k0 = k
      · subst h
        rw [assocGet_bump_self]
        simp [List.count_cons]
        omega
      · rw [assocGet_bump_other _ _ _ (fun hh => h hh.symm)]
        simp [List.count_cons, h]

theorem assocGet_of_mem (al : List (String × Nat)) (k : String) (n : Nat)
    (hnd : (al.map Prod.fst).Nodup) (h : (k, n) ∈ al) : assocGet al k = n := by
  induction al with
  | nil => cases h
  | cons kv rest ih =>
      obtain ⟨k', n'⟩ := kv
      simp only [List.map_cons, List.nodup_cons] at hnd
      rcases List.mem_cons.mp h with h1 | h1
      · injection h1 with hk hn
        subst hk
        subst hn
        simp [assocGet]
      · by_cases hk : k' = k
        · subst hk
          exact absurd (List.mem_map_of_mem Prod.fst h1) (by simpa using hnd.1)
        · simp only [assocGet, if_neg hk]
          exact ih hnd.2 h1

theorem locationCounts_count (l : List SeismicEvent) (kv : String × Nat)
    (h : kv ∈ locationCounts l) : kv.2 = (l.map placeKey).count kv.1 := by
  obtain ⟨k, n⟩ := kv
  have hget := assocGet_of_mem _ k n (locationCounts_keys_nodup l) h
  have h2 : assocGet (locationCounts l) k = (l.map placeKey).count k := by
    rw [locationCounts_eq_foldl, assocGet_foldl_bump]
    simp [assocGet]
  show n = (l.map placeKey).count k
  rw [← hget]
  exact h2

theorem jsObjectEntries_perm (al : List (String × Nat)) :
    (jsObjectEntries al).Perm al := by
  unfold jsObjectEntries
  refine List.Perm.trans
    (List.Perm.append (List.perm_insertionSort idxLE _) (List.Perm.refl _)) ?_
  exact List.filter_append_perm _ al

theorem topEntries_subset (filtered : List SeismicEvent) :
    ∀ kv ∈ topEntries filtered, kv ∈ locationCounts filtered := by
  intro kv h
  unfold topEntries sortEntriesDesc at h
  have h1 := List.take_subset 5 _ h
  have h2 := (List.perm_insertionSort entryGE _).mem_iff.mp h1
  exact (jsObjectEntries_perm _).mem_iff.mp h2

/-- Every ranked entry's count is the exact number of filtered events whose
place (after the `"Unknown"` substitution) equals the entry's place —
grouping is by exact place string. -/

theorem topEntries_sorted (filtered : List SeismicEvent) :
    topEntriesSortedDesc filtered := by
  unfold topEntriesSortedDesc topEntries sortEntriesDesc
  exact List.Pairwise.sublist (List.take_sublist 5 _)
    (List.sorted_insertionSort entryGE _)

theorem topEntries_tie_stable (filtered : List SeismicEvent) :
    topEntriesTieStable filtered := by
  intro c
  unfold topEntries
  have hpre : (sortEntriesDesc (jsObjectEntries (locationCounts filtered))).take 5 <+:
      sortEntriesDesc (jsObjectEntries (locationCounts filtered)) :=
    ⟨(sortEntriesDesc (jsObjectEntries (locationCounts filtered))).drop 5,
      List.take_append_drop 5 _⟩
  have h1 := List.IsPrefix.filter (fun kv => kv.2 == c) hpre
  have h2 : (sortEntriesDesc (jsObjectEntries (locationCounts filtered))).filter
        (fun kv => kv.2 == c) =
      (jsObjectEntries (locationCounts filtered)).filter fun kv => kv.2 == c := by
    unfold sortEntriesDesc
    exact filter_count_insertionSort c _
  rw [h2] at h1
  exact h1

/-- C3 (amended): the aggregator's top-locations list is the formatting of
the first five entries of the stable descending-by-count sort of the
location counter's `Object.entries` enumeration; its length is
`min 5 (number of distinct place strings)`, grouping is by exact place
string with `"Unknown"` substituted for an empty or missing place, the
entries are in descending count order, and ties between equal counts keep
the `Object.entries` enumeration order — canonical array-index place
strings first in ascending numeric order, then the remaining places in
first-occurrence order. -/

theorem top_locations_ranking (filtered : List SeismicEvent)
    (p : Option PlatesData) (r : Stats) (hr : stats filtered p = some r) :
    r.topLocations = (topEntries filtered).map fmtEntry ∧
      r.topLocations.length = min 5 (filtered.map placeKey).toFinset.card ∧
      topEntriesCountsCorrect filtered ∧
      topEntriesSortedDesc filtered ∧
      topEntriesTieStable filtered := by
  have htop : r.topLocations = (topEntries filtered).map fmtEntry := by
    cases filtered with
    | nil => exact absurd hr (by simp [stats])
    | cons e t =>
        simp only [stats, List.isEmpty_cons, Bool.false_eq_true, if_false,
          Option.some.injEq] at hr
        subst hr
        rfl
  refine ⟨htop, ?_, ?_, topEntries_sorted filtered,
    topEntries_tie_stable filtered⟩
  · rw [htop, List.length_map]
    unfold topEntries
    rw [List.length_take]
    congr 1
    unfold sortEntriesDesc
    rw [List.length_insertionSort, ← locationCounts_length]
    exact (jsObjectEntries_perm _).length_eq
  · intro kv h
    exact locationCounts_count filtered kv (topEntries_subset filtered kv h)

theorem top_locations_ranking_witness :
    stats [eSample] none = some statsSample ∧
      (statsSample.topLocations = (topEntries [eSample]).map fmtEntry ∧
        statsSample.topLocations.length =
          min 5 ([eSample].map placeKey).toFinset.card ∧
        topEntriesCountsCorrect [eSample] ∧
        topEntriesSortedDesc [eSample] ∧
        topEntriesTieStable [eSample]) :=
  ⟨statsSample_spec,
    top_locations_ranking [eSample] none statsSample statsSample_spec⟩
